import Mathlib

/-!
Verification of the `ees` error-handling library (src/lib.rs, src/internal.rs),
as a shallow embedding in Lean 4.

Data model: every error value reachable in this library is one of
* `FormattedError { message }`            — a plain message, no cause (`source()` is `None`);
  arbitrary platform errors with just a display message are also of this shape;
* `FormattedWrapError { message, source }` — a message wrapping an owned cause
  (`source()` is `Some(cause)`); platform errors that expose a cause fit this shape;
* `WrapError { inner }`                   — the opaque wrapper produced by `to_err`,
  whose `Display` and `source()` both delegate to `inner`.

The `Display` of a single node prints only its own message (`FormattedError` /
`FormattedWrapError` write `self.message`; `WrapError` delegates), modelled by
`ErrorVal.message`.  The `source()` method of the std `Error` trait is modelled
by `ErrorVal.sourceOf`.
-/

inductive ErrorVal where
  | formattedError (message : String)
  | formattedWrapError (message : String) (src : ErrorVal)
  | wrapError (inner : ErrorVal)
deriving DecidableEq

namespace ErrorVal

/-- Display of a single node: `FormattedError` and `FormattedWrapError` write
`self.message`; the `Display` of `WrapError` delegates to `self.inner`. -/
def message : ErrorVal → String
  | formattedError m => m
  | formattedWrapError m _ => m
  | wrapError inner => message inner

/-- The `source()` method of `std::error::Error`: `FormattedError` has no
cause (default `None`), `FormattedWrapError` returns `Some(self.source)`,
and `WrapError` returns `self.inner.source()`. -/
def sourceOf : ErrorVal → Option ErrorVal
  | formattedError _ => none
  | formattedWrapError _ s => some s
  | wrapError inner => sourceOf inner

/-- Structural size of an error value, used as the termination measure for
the chain-traversal loops of the renderer. -/
def errSize : ErrorVal → Nat
  | formattedError _ => 1
  | formattedWrapError _ s => errSize s + 1
  | wrapError inner => errSize inner + 1

theorem sourceOf_errSize : ∀ (e s : ErrorVal), sourceOf e = some s → errSize s < errSize e
  | formattedError _, _, h => by simp [sourceOf] at h
  | formattedWrapError m c, s, h => by
      simp [sourceOf] at h
      subst h
      simp [errSize]
  | wrapError inner, s, h => by
      simp [sourceOf] at h
      have := sourceOf_errSize inner s h
      simp [errSize]
      omega

end ErrorVal

open ErrorVal

/-- The chain of display messages reachable from a node by repeatedly following
`source()` links, outermost first (the "chain" of the glossary). -/
def chainMessages (e : ErrorVal) : List String :=
  message e ::
    (match h : sourceOf e with
     | none => []
     | some s => chainMessages s)
termination_by errSize e
decreasing_by exact sourceOf_errSize e s h

/-- The Rust format `{: >5}`: right-justify in a field of width 5, padding with
spaces on the left (no truncation when longer). -/
def padLeft5 (s : String) : String :=
  String.mk (List.replicate (5 - s.length) ' ') ++ s

/-- One numbered line of the expanded format, `"{: >5}: {}"` applied to index
`n` and a message. -/
def numberedLine (n : Nat) (msg : String) : String :=
  padLeft5 (toString n) ++ ": " ++ msg

/-- The compact-mode `while let Some(inner) = error.source()` loop of
`ErrorChain::fmt`: emits `": " + inner` for each node after the current one. -/
def compactLoop (e : ErrorVal) : String :=
  match h : sourceOf e with
  | none => ""
  | some inner => ": " ++ message inner ++ compactLoop inner
termination_by errSize e
decreasing_by exact sourceOf_errSize e inner h

/-- The expanded-mode `while let Some(inner) = error.source()` loop of
`ErrorChain::fmt` (entered with `n = 2`): emits `"\n{: >5}: {}"` per node. -/
def numberedLoop (n : Nat) (e : ErrorVal) : String :=
  match h : sourceOf e with
  | none => ""
  | some inner => "\n" ++ numberedLine n (message inner) ++ numberedLoop (n + 1) inner
termination_by errSize e
decreasing_by exact sourceOf_errSize e inner h

/-- The struct returned by `print_error_chain`, holding the boxed error. -/
structure ErrorChain where
  error : ErrorVal

/-- `print_error_chain`: wraps the error in an `ErrorChain`. -/
def print_error_chain (e : ErrorVal) : ErrorChain := { error := e }

/-- The `Display` impl of `ErrorChain` (`ErrorChain::fmt`): `alternate` is the
`{:#}` flag.  Non-alternate: outermost message, then `": " + inner` per link.
Alternate: outermost message; if it has a source, `"\n\nCaused by:\n"`, then
either the numbered block (when the first cause itself has a source) or the
single 4-space-indented cause message. -/
def ErrorChain.fmtDisplay (c : ErrorChain) (alternate : Bool) : String :=
  message c.error ++
    (if alternate then
      match sourceOf c.error with
      | none => ""
      | some first_inner =>
        "\n\nCaused by:\n" ++
          (match sourceOf first_inner with
           | some second_inner =>
               numberedLine 0 (message first_inner) ++ "\n" ++
                 (numberedLine 1 (message second_inner) ++ numberedLoop 2 second_inner)
           | none => "    " ++ message first_inner)
     else compactLoop c.error)

/-- `to_err`: wraps any owned error in a `WrapError`. -/
def to_err (e : ErrorVal) : ErrorVal := ErrorVal.wrapError e

/-- The function make_opaque of internal.rs: the body is just `error`. -/
def make_opaque (e : ErrorVal) : ErrorVal := e

/-- The `MainError` struct: wraps an arbitrary owned error. -/
structure MainError where
  error : ErrorVal

/-- The `From` impl of `MainError`. -/
def MainError.fromError (e : ErrorVal) : MainError := { error := e }

/-- The `Display` impl of `MainError`: `write!(f, "{:#}", print_error_chain(self.error.as_ref()))`. -/
def MainError.displayFmt (me : MainError) : String :=
  (print_error_chain me.error).fmtDisplay true

/-- The `Debug` impl of `MainError`: `write!(f, "{:#}", print_error_chain(self.error.as_ref()))`. -/
def MainError.debugFmt (me : MainError) : String :=
  (print_error_chain me.error).fmtDisplay true

/-- The `err!` macro / `error_from_string(_literal)`: a `FormattedError`
carrying the rendered message. -/
def error_from_string (m : String) : ErrorVal := ErrorVal.formattedError m

/-- The `wrap!` macro / `wrap_error_from_string(_literal)`: a
`FormattedWrapError` carrying the rendered message and the converted cause. -/
def wrap_error_from_string (src : ErrorVal) (m : String) : ErrorVal :=
  ErrorVal.formattedWrapError m src

/-- Iterating the `source()` link: `sourceIter 0 e = some e`, and each further
step follows `source()` from the node reached so far (`none` once the chain
has ended). -/
def sourceIter : Nat → ErrorVal → Option ErrorVal
  | 0, e => some e
  | n + 1, e =>
    match sourceIter n e with
    | none => none
    | some x => sourceOf x

/-! Specification-side definitions, written from the wording of the spec. -/

/-- Spec wording: a list of messages joined by a separator (used for
compact mode with separator `": "`). -/
def joinedBy (sep : String) : List String → String
  | [] => ""
  | [m] => m
  | m :: m2 :: rest => m ++ sep ++ joinedBy sep (m2 :: rest)

/-- Spec wording for the numbered block of expanded mode: one line per
message, each a 5-character right-justified index followed by `": "` and the
message, indices increasing from `i` down the list, joined by single
newlines with no trailing newline. -/
def specNumbered (i : Nat) : List String → String
  | [] => ""
  | [m] => numberedLine i m
  | m :: m2 :: rest => numberedLine i m ++ "\n" ++ specNumbered (i + 1) (m2 :: rest)

/-- A string with no line breaks. -/
def noLB (s : String) : Prop := '\n' ∉ s.data

instance : DecidablePred noLB := fun s =>
  inferInstanceAs (Decidable ('\n' ∉ s.data))

/-! Helper lemmas. -/

theorem strAppendAssoc (a b c : String) : a ++ b ++ c = a ++ (b ++ c) := by
  apply String.ext
  simp [String.data_append]

theorem strAppendEmpty (a : String) : a ++ "" = a := by
  apply String.ext
  simp [String.data_append]

theorem errSize_pos (e : ErrorVal) : 1 ≤ errSize e := by
  cases e <;> simp [errSize]

theorem message_wrapError (x : ErrorVal) : message (ErrorVal.wrapError x) = message x := rfl

theorem sourceOf_wrapError (x : ErrorVal) : sourceOf (ErrorVal.wrapError x) = sourceOf x := rfl

theorem chainMessages_none (e : ErrorVal) (h : sourceOf e = none) :
    chainMessages e = [message e] := by
  rw [chainMessages.eq_def]
  split
  · rfl
  · rename_i s hs
    rw [h] at hs
    exact absurd hs (by simp)

theorem chainMessages_some (e s : ErrorVal) (h : sourceOf e = some s) :
    chainMessages e = message e :: chainMessages s := by
  rw [chainMessages.eq_def]
  split
  · rename_i hn
    rw [h] at hn
    exact absurd hn (by simp)
  · rename_i s2 hs
    rw [h] at hs
    injection hs with hss
    rw [hss]

theorem chainMessages_ne_nil (e : ErrorVal) : chainMessages e ≠ [] := by
  cases h : sourceOf e with
  | none => rw [chainMessages_none e h]; simp
  | some s => rw [chainMessages_some e s h]; simp

theorem compactLoop_none (e : ErrorVal) (h : sourceOf e = none) : compactLoop e = "" := by
  rw [compactLoop.eq_def]
  split
  · rfl
  · rename_i s hs
    rw [h] at hs
    exact absurd hs (by simp)

theorem compactLoop_some (e s : ErrorVal) (h : sourceOf e = some s) :
    compactLoop e = ": " ++ message s ++ compactLoop s := by
  rw [compactLoop.eq_def]
  split
  · rename_i hn
    rw [h] at hn
    exact absurd hn (by simp)
  · rename_i s2 hs
    rw [h] at hs
    injection hs with hss
    rw [hss]

theorem numberedLoop_none (n : Nat) (e : ErrorVal) (h : sourceOf e = none) :
    numberedLoop n e = "" := by
  rw [numberedLoop.eq_def]
  split
  · rfl
  · rename_i s hs
    rw [h] at hs
    exact absurd hs (by simp)

theorem numberedLoop_some (n : Nat) (e s : ErrorVal) (h : sourceOf e = some s) :
    numberedLoop n e = "\n" ++ numberedLine n (message s) ++ numberedLoop (n + 1) s := by
  rw [numberedLoop.eq_def]
  split
  · rename_i hn
    rw [h] at hn
    exact absurd hn (by simp)
  · rename_i s2 hs
    rw [h] at hs
    injection hs with hss
    rw [hss]

theorem compactLoop_wrapError (x : ErrorVal) :
    compactLoop (ErrorVal.wrapError x) = compactLoop x := by
  cases hx : sourceOf x with
  | none => rw [compactLoop_none _ (by rw [sourceOf_wrapError, hx]), compactLoop_none _ hx]
  | some s =>
      rw [compactLoop_some _ s (by rw [sourceOf_wrapError, hx]), compactLoop_some _ s hx]

theorem numberedLoop_wrapError (n : Nat) (x : ErrorVal) :
    numberedLoop n (ErrorVal.wrapError x) = numberedLoop n x := by
  cases hx : sourceOf x with
  | none => rw [numberedLoop_none _ _ (by rw [sourceOf_wrapError, hx]), numberedLoop_none _ _ hx]
  | some s =>
      rw [numberedLoop_some _ _ s (by rw [sourceOf_wrapError, hx]), numberedLoop_some _ _ s hx]

theorem chainMessages_wrapError (x : ErrorVal) :
    chainMessages (ErrorVal.wrapError x) = chainMessages x := by
  cases hx : sourceOf x with
  | none =>
      rw [chainMessages_none _ (by rw [sourceOf_wrapError, hx]), chainMessages_none _ hx,
        message_wrapError]
  | some s =>
      rw [chainMessages_some _ s (by rw [sourceOf_wrapError, hx]), chainMessages_some _ s hx,
        message_wrapError]

theorem noLB_append (a b : String) (ha : noLB a) (hb : noLB b) : noLB (a ++ b) := by
  simp only [noLB, String.data_append, List.mem_append, not_or]
  exact ⟨ha, hb⟩

theorem noLB_joinedBy (sep : String) (hsep : noLB sep) :
    ∀ (l : List String), (∀ m ∈ l, noLB m) → noLB (joinedBy sep l)
  | [], _ => by simp [joinedBy, noLB]
  | [m], h => by
      simpa [joinedBy] using h m (by simp)
  | m :: m2 :: rest, h => by
      rw [joinedBy]
      refine noLB_append _ _ (noLB_append _ _ (h m (by simp)) hsep) ?_
      exact noLB_joinedBy sep hsep (m2 :: rest) (fun x hx => h x (by simp [hx]))

theorem compact_join : ∀ (e : ErrorVal), message e ++ compactLoop e = joinedBy ": " (chainMessages e)
  | ErrorVal.formattedError m => by
      rw [compactLoop_none (ErrorVal.formattedError m) rfl,
        chainMessages_none (ErrorVal.formattedError m) rfl]
      simp [joinedBy, strAppendEmpty]
  | ErrorVal.formattedWrapError m c => by
      rw [compactLoop_some (ErrorVal.formattedWrapError m c) c rfl,
        chainMessages_some (ErrorVal.formattedWrapError m c) c rfl]
      have ih := compact_join c
      cases hct : chainMessages c with
      | nil => exact absurd hct (chainMessages_ne_nil c)
      | cons hd tl =>
          rw [hct] at ih
          simp only [joinedBy]
          rw [← ih]
          simp [strAppendAssoc]
  | ErrorVal.wrapError inner => by
      rw [message_wrapError, compactLoop_wrapError, chainMessages_wrapError]
      exact compact_join inner

theorem specNumbered_cons (i : Nat) (m : String) (l : List String) (h : l ≠ []) :
    specNumbered i (m :: l) = numberedLine i m ++ "\n" ++ specNumbered (i + 1) l := by
  cases l with
  | nil => exact absurd rfl h
  | cons m2 rest => rw [specNumbered]

theorem numbered_block : ∀ (s : ErrorVal) (n : Nat),
    numberedLine n (message s) ++ numberedLoop (n + 1) s = specNumbered n (chainMessages s)
  | ErrorVal.formattedError m, n => by
      rw [numberedLoop_none (n + 1) (ErrorVal.formattedError m) rfl,
        chainMessages_none (ErrorVal.formattedError m) rfl]
      simp [specNumbered, strAppendEmpty]
  | ErrorVal.formattedWrapError m c, n => by
      rw [numberedLoop_some (n + 1) (ErrorVal.formattedWrapError m c) c rfl,
        chainMessages_some (ErrorVal.formattedWrapError m c) c rfl]
      rw [specNumbered_cons n (message (ErrorVal.formattedWrapError m c)) (chainMessages c)
        (chainMessages_ne_nil c)]
      rw [← numbered_block c (n + 1)]
      simp [strAppendAssoc]
  | ErrorVal.wrapError inner, n => by
      rw [message_wrapError, numberedLoop_wrapError, chainMessages_wrapError]
      exact numbered_block inner n

theorem sourceIter_le (n : Nat) :
    ∀ (e x : ErrorVal), sourceIter n e = some x → errSize x + n ≤ errSize e := by
  induction n with
  | zero =>
      intro e x h
      simp only [sourceIter, Option.some.injEq] at h
      subst h
      omega
  | succ n ih =>
      intro e x h
      rw [sourceIter] at h
      cases hy : sourceIter n e with
      | none => rw [hy] at h; exact absurd h (by simp)
      | some y =>
          rw [hy] at h
          have h1 := ih e y hy
          have h2 := sourceOf_errSize y x h
          omega

theorem sourceIter_errSize_none (e : ErrorVal) : sourceIter (errSize e) e = none := by
  cases hopt : sourceIter (errSize e) e with
  | none => rfl
  | some x =>
      have h1 := sourceIter_le (errSize e) e x hopt
      have h2 := errSize_pos x
      omega

/-! Claim theorems. -/

/-- C1: compact-mode rendering (the non-alternate Display of the value returned
by print_error_chain) of any chain equals its node messages joined by `": "`,
outermost first; every chain has depth at least 1; and when no node message
contains a line break the compact rendering contains none either. -/
theorem c1_compact_is_colon_joined (e : ErrorVal) :
    (print_error_chain e).fmtDisplay false = joinedBy ": " (chainMessages e) ∧
    chainMessages e ≠ [] ∧
    ((∀ m ∈ chainMessages e, noLB m) → noLB ((print_error_chain e).fmtDisplay false)) := by
  have hfmt : (print_error_chain e).fmtDisplay false = message e ++ compactLoop e := by
    simp [ErrorChain.fmtDisplay, print_error_chain]
  refine ⟨?_, chainMessages_ne_nil e, ?_⟩
  · rw [hfmt]
    exact compact_join e
  · intro h
    rw [hfmt, compact_join e]
    exact noLB_joinedBy ": " (by decide) _ h

/-- Witness for C1 at the two-node chain `"a"` wrapping `"b"`. -/
theorem c1_witness :
    (∀ m ∈ chainMessages (ErrorVal.formattedWrapError "a" (ErrorVal.formattedError "b")),
      noLB m) ∧
    noLB ((print_error_chain
      (ErrorVal.formattedWrapError "a" (ErrorVal.formattedError "b"))).fmtDisplay false) := by
  have h1 : ∀ m ∈ chainMessages (ErrorVal.formattedWrapError "a" (ErrorVal.formattedError "b")),
      noLB m := by
    rw [chainMessages_some (ErrorVal.formattedWrapError "a" (ErrorVal.formattedError "b"))
      (ErrorVal.formattedError "b") rfl, chainMessages_none (ErrorVal.formattedError "b") rfl]
    decide
  exact ⟨h1, (c1_compact_is_colon_joined
    (ErrorVal.formattedWrapError "a" (ErrorVal.formattedError "b"))).2.2 h1⟩

/-- C2: for chains of depth at least 3, expanded-mode rendering is the outer
message, a blank line, the header `Caused by:`, then one numbered line per
remaining node, indices 0 at the first cause increasing down to the terminal
node, each a 5-character right-justified index then `": "` then the message,
joined by single newlines with no trailing newline. -/
theorem c2_expanded_numbered_block (e : ErrorVal) (m0 m1 m2 : String) (rest : List String)
    (h : chainMessages e = m0 :: m1 :: m2 :: rest) :
    (print_error_chain e).fmtDisplay true =
      m0 ++ "\n\nCaused by:\n" ++ specNumbered 0 (m1 :: m2 :: rest) := by
  cases hs : sourceOf e with
  | none =>
      rw [chainMessages_none e hs] at h
      simp at h
  | some s1 =>
      rw [chainMessages_some e s1 hs] at h
      injection h with h0 h1
      cases hs1 : sourceOf s1 with
      | none =>
          rw [chainMessages_none s1 hs1] at h1
          simp at h1
      | some s2 =>
          rw [chainMessages_some s1 s2 hs1] at h1
          injection h1 with h1a h1b
          have hnb := numbered_block s2 1
          norm_num at hnb
          rw [h1b] at hnb
          simp only [ErrorChain.fmtDisplay, print_error_chain, hs, hs1, if_true]
          rw [specNumbered_cons 0 m1 (m2 :: rest) (by simp), ← hnb, h0, h1a]
          simp [strAppendAssoc]

/-- Witness for C2 at the three-node chain `"a"`, `"b"`, `"c"`. -/
theorem c2_witness :
    chainMessages (ErrorVal.formattedWrapError "a"
      (ErrorVal.formattedWrapError "b" (ErrorVal.formattedError "c"))) = ["a", "b", "c"] ∧
    (print_error_chain (ErrorVal.formattedWrapError "a"
      (ErrorVal.formattedWrapError "b" (ErrorVal.formattedError "c")))).fmtDisplay true =
      "a" ++ "\n\nCaused by:\n" ++ specNumbered 0 ["b", "c"] := by
  have hcm : chainMessages (ErrorVal.formattedWrapError "a"
      (ErrorVal.formattedWrapError "b" (ErrorVal.formattedError "c"))) = ["a", "b", "c"] := by
    rw [chainMessages_some (ErrorVal.formattedWrapError "a"
        (ErrorVal.formattedWrapError "b" (ErrorVal.formattedError "c")))
        (ErrorVal.formattedWrapError "b" (ErrorVal.formattedError "c")) rfl,
      chainMessages_some (ErrorVal.formattedWrapError "b" (ErrorVal.formattedError "c"))
        (ErrorVal.formattedError "c") rfl,
      chainMessages_none (ErrorVal.formattedError "c") rfl]
    rfl
  exact ⟨hcm, c2_expanded_numbered_block _ "a" "b" "c" [] hcm⟩

/-- C3: for chains of depth exactly 2, expanded-mode rendering is the outer
message, a blank line, the header `Caused by:`, then the single cause message
indented by exactly 4 spaces and unnumbered. -/
theorem c3_expanded_depth_two (e : ErrorVal) (m0 m1 : String)
    (h : chainMessages e = [m0, m1]) :
    (print_error_chain e).fmtDisplay true = m0 ++ "\n\nCaused by:\n" ++ ("    " ++ m1) := by
  cases hs : sourceOf e with
  | none =>
      rw [chainMessages_none e hs] at h
      simp at h
  | some s1 =>
      rw [chainMessages_some e s1 hs] at h
      injection h with h0 h1
      cases hs1 : sourceOf s1 with
      | some s2 =>
          rw [chainMessages_some s1 s2 hs1] at h1
          injection h1 with h1a h1b
          exact absurd h1b (chainMessages_ne_nil s2)
      | none =>
          rw [chainMessages_none s1 hs1] at h1
          injection h1 with h1a h1b
          simp only [ErrorChain.fmtDisplay, print_error_chain, hs, hs1, if_true]
          rw [h0, h1a]
          simp [strAppendAssoc]

/-- Witness for C3: the example from the spec, `"permission denied"` wrapping
a terminal `"oh no"`. -/
theorem c3_witness :
    chainMessages (ErrorVal.formattedWrapError "permission denied"
      (ErrorVal.formattedError "oh no")) = ["permission denied", "oh no"] ∧
    (print_error_chain (ErrorVal.formattedWrapError "permission denied"
      (ErrorVal.formattedError "oh no"))).fmtDisplay true =
      "permission denied\n\nCaused by:\n    oh no" := by
  have hcm : chainMessages (ErrorVal.formattedWrapError "permission denied"
      (ErrorVal.formattedError "oh no")) = ["permission denied", "oh no"] := by
    rw [chainMessages_some (ErrorVal.formattedWrapError "permission denied"
        (ErrorVal.formattedError "oh no")) (ErrorVal.formattedError "oh no") rfl,
      chainMessages_none (ErrorVal.formattedError "oh no") rfl]
    rfl
  refine ⟨hcm, ?_⟩
  rw [c3_expanded_depth_two _ "permission denied" "oh no" hcm]
  rfl

/-- C4: both the Display and the Debug representation of MainError are
exactly the expanded-mode output of the chain renderer applied to the inner
owned error, and hence equal to each other. -/
theorem c4_main_error_render (me : MainError) :
    me.displayFmt = (print_error_chain me.error).fmtDisplay true ∧
    me.debugFmt = (print_error_chain me.error).fmtDisplay true ∧
    me.displayFmt = me.debugFmt :=
  ⟨rfl, rfl, rfl⟩

theorem fmtDisplay_wrapError (alt : Bool) (e : ErrorVal) :
    (print_error_chain (ErrorVal.wrapError e)).fmtDisplay alt =
      (print_error_chain e).fmtDisplay alt := by
  cases alt <;>
    simp [ErrorChain.fmtDisplay, print_error_chain, message_wrapError, sourceOf_wrapError,
      compactLoop_wrapError]

/-- C5: to_err is idempotent on rendered output, in both rendering modes:
rendering the wrap of e, and the wrap of the wrap of e, both equal
rendering e. -/
theorem c5_to_err_render_idempotent (alt : Bool) (e : ErrorVal) :
    (print_error_chain (to_err e)).fmtDisplay alt = (print_error_chain e).fmtDisplay alt ∧
    (print_error_chain (to_err (to_err e))).fmtDisplay alt =
      (print_error_chain e).fmtDisplay alt := by
  constructor
  · exact fmtDisplay_wrapError alt e
  · exact (fmtDisplay_wrapError alt (ErrorVal.wrapError e)).trans (fmtDisplay_wrapError alt e)

/-- C6 counterexample: at the concrete input `FormattedError "m"`, the causal
link of the value produced by to_err is `none`, not a link to the original
value itself as the claim states. -/
theorem c6_counterexample :
    ¬ sourceOf (to_err (ErrorVal.formattedError "m")) =
      some (ErrorVal.formattedError "m") := by
  decide

/-- C6 (amended): to_err produces a new owned error value of the single fixed
concrete shape WrapError, whose causal link (source) delegates to the original
value, returning the source of the original value rather than the original
value itself, and whose display message is the original message. -/
theorem c6_opaque_wrap_fixed_shape_delegating (e : ErrorVal) :
    to_err e = ErrorVal.wrapError e ∧
    sourceOf (to_err e) = sourceOf e ∧
    message (to_err e) = message e :=
  ⟨rfl, rfl, rfl⟩

/-- C7: wrapping a cause c under message m via wrap! produces an error whose
own message is m, whose source is `some c`, and whose compact rendering is m
followed by `": "` followed by the compact rendering of c. -/
theorem c7_wrap_adds_one_link (c : ErrorVal) (m : String) :
    message (wrap_error_from_string c m) = m ∧
    sourceOf (wrap_error_from_string c m) = some c ∧
    (print_error_chain (wrap_error_from_string c m)).fmtDisplay false =
      m ++ ": " ++ (print_error_chain c).fmtDisplay false := by
  refine ⟨rfl, rfl, ?_⟩
  have hcl := compactLoop_some (ErrorVal.formattedWrapError m c) c rfl
  simp [ErrorChain.fmtDisplay, print_error_chain, hcl, wrap_error_from_string, message,
    strAppendAssoc]

/-- C8: a chain consisting of a single terminal node renders, in either mode,
to exactly the message of that node. -/
theorem c8_terminal_renders_message (e : ErrorVal) (h : sourceOf e = none) :
    (print_error_chain e).fmtDisplay false = message e ∧
    (print_error_chain e).fmtDisplay true = message e := by
  constructor
  · simp [ErrorChain.fmtDisplay, print_error_chain, compactLoop_none e h, strAppendEmpty]
  · simp [ErrorChain.fmtDisplay, print_error_chain, h, strAppendEmpty]

/-- Witness for C8 at the terminal node `"oh no"`. -/
theorem c8_witness :
    sourceOf (ErrorVal.formattedError "oh no") = none ∧
    ((print_error_chain (ErrorVal.formattedError "oh no")).fmtDisplay false = "oh no" ∧
     (print_error_chain (ErrorVal.formattedError "oh no")).fmtDisplay true = "oh no") :=
  ⟨rfl, c8_terminal_renders_message (ErrorVal.formattedError "oh no") rfl⟩

/-- C9: following source links always terminates: from any library-built error
value, iterating source reaches the end of the chain within errSize e steps,
and no value is reachable from itself by one or more source steps (no node
directly or transitively causes itself). -/
theorem c9_chain_traversal_terminates (e x : ErrorVal) (n : Nat) (hn : 0 < n)
    (h : sourceIter n e = some x) :
    x ≠ e ∧ sourceIter (errSize e) e = none := by
  constructor
  · intro hxe
    have h1 := sourceIter_le n e x h
    rw [hxe] at h1
    omega
  · exact sourceIter_errSize_none e

/-- Witness for C9: one source step from the chain `"a"` wrapping `"b"`
reaches the terminal node, which is a different value, and iteration
terminates within the size bound. -/
theorem c9_witness :
    (0 < 1 ∧ sourceIter 1 (ErrorVal.formattedWrapError "a" (ErrorVal.formattedError "b")) =
      some (ErrorVal.formattedError "b")) ∧
    (ErrorVal.formattedError "b" ≠
      ErrorVal.formattedWrapError "a" (ErrorVal.formattedError "b") ∧
     sourceIter (errSize (ErrorVal.formattedWrapError "a" (ErrorVal.formattedError "b")))
       (ErrorVal.formattedWrapError "a" (ErrorVal.formattedError "b")) = none) :=
  ⟨⟨by decide, by decide⟩,
   c9_chain_traversal_terminates
     (ErrorVal.formattedWrapError "a" (ErrorVal.formattedError "b"))
     (ErrorVal.formattedError "b") 1 (by decide) (by decide)⟩

/-- C10: make_opaque is the identity function: it returns its argument itself,
preserving message and source, and in particular does not wrap its argument in
a WrapError the way to_err does. -/
theorem c10_make_opaque_identity (e : ErrorVal) :
    make_opaque e = e ∧
    message ( make_opaque e) = message e ∧
    sourceOf ( make_opaque e) = sourceOf e ∧
    make_opaque e ≠ to_err e := by
  refine ⟨rfl, rfl, rfl, ?_⟩
  intro heq
  have h := congrArg errSize heq
  simp only [ make_opaque, to_err, errSize] at h
  omega
